import Mathlib

/-!
Verification of the real-time collaboration core of the code-loom repository.

The development shallowly embeds the relevant server modules:

* `src/server/src/collaboration/yjs-server.ts` — the Y.js document registry
  (per `projectId:filePath` key: a shared document, a member set of sockets,
  per-attachment event handlers, and a 5-minute eviction timer);
* `src/server/src/routes/projects.ts` — the edit-permission check on the
  file-save route;
* `src/server/src/index.ts` — presence rooms and WebRTC signaling relay over
  socket.io.

Y.js itself and socket.io are third-party libraries, so their behaviour is
modelled from their documented semantics where the claims depend on it; every
in-repository function is translated from the source.
-/

set_option autoImplicit false

namespace CodeLoom

/-- Modelled from the spec: the Y.js library's `Y.Doc` state (the library is not
part of this repository's `src/`).  The spec describes a state-based CRDT whose
content is determined by the set of merged updates, with commutative,
associative and idempotent merging; we model the state as the finite set of
update identifiers merged so far. -/
abbrev YDoc := Finset Nat

/-- Modelled from the spec: `Y.applyUpdate doc u` merges one update into the
document state (set insertion: duplicates are absorbed). -/
def applyUpdate (doc : YDoc) (u : Nat) : YDoc := insert u doc

/-- Modelled from the spec: `Y.encodeStateVector doc` summarises which updates
`doc` has already merged; in the set model the summary is the set itself. -/
def encodeStateVector (doc : YDoc) : Finset Nat := doc

/-- Modelled from the spec: `Y.encodeStateAsUpdate doc sv` encodes exactly the
updates of `doc` that a replica whose state vector is `sv` is missing.  Called
with `sv = ∅` it encodes the full state. -/
def encodeStateAsUpdate (doc : YDoc) (sv : Finset Nat) : Finset Nat := doc \ sv

/-- Merging a list of updates left to right. -/
def applyUpdates (doc : YDoc) (us : List Nat) : YDoc := us.foldl applyUpdate doc

/-- A document key `projectId:filePath` as built by `setupCollaboration`. -/
structure DocKey where
  projectId : Nat
  filePath : Nat
deriving DecidableEq, Repr

/-- One entry of the module-level `projectDocs` map of `yjs-server.ts`:
the shared `Y.Doc` plus the `Set` of attached sockets.  `connections` is a
duplicate-free list in insertion order, matching a JS `Set` of sockets.
`lastEmptied` is ghost instrumentation only: it records the time at which the
member set last became empty, so that eviction timing can be stated; no
operation branches on it. -/
structure ProjectDoc where
  doc : YDoc
  connections : List Nat
  lastEmptied : Option Nat
deriving DecidableEq

/-- JS `Set.add`: append the socket unless already present (insertion order). -/
def addConn (l : List Nat) (c : Nat) : List Nat :=
  if c ∈ l then l else l ++ [c]

/-- JS `Set.delete`: remove the socket from the member set. -/
def delConn (l : List Nat) (c : Nat) : List Nat :=
  l.filter (fun m => m ≠ c)

/-- One handler registration made by the `yjs-connect` handler: the closure
over `(socket, projectDoc, docKey)` shared by the `yjs-update`,
`yjs-awareness`, `disconnect` and `yjs-disconnect` listeners of that
attachment.  `ref` is the heap reference of the captured `ProjectDoc` object.
Listeners are never removed (`socket.on` with no matching `off`). -/
structure Reg where
  conn : Nat
  ref : Nat
  key : DocKey
deriving DecidableEq, Repr

/-- A pending `setTimeout` eviction scheduled by `conn.close`: it captured the
`ProjectDoc` reference and the `docKey`, and fires at `fireAt`. -/
structure Timer where
  ref : Nat
  key : DocKey
  fireAt : Nat
deriving DecidableEq, Repr

/-- The mutable module state of `yjs-server.ts`.  `arena` is the heap of
`ProjectDoc` objects (a closure keeps its object alive even after the map entry
is deleted), `projectDocs` the module-level `Map` from key to heap reference,
`regs` the registered per-attachment listeners, `timers` the pending eviction
timeouts. -/
structure ServerState where
  arena : List ProjectDoc
  projectDocs : List (DocKey × Nat)
  regs : List Reg
  timers : List Timer
deriving DecidableEq

/-- Events the collaboration module emits back to clients:
`yjs-sync`, `yjs-update` and `yjs-awareness` (the module emits nothing else). -/
inductive YEmit where
  | sync (tgt : Nat) (payload : Finset Nat)
  | docUpdate (tgt : Nat) (u : Nat)
  | awareness (tgt : Nat) (u : Nat)
deriving DecidableEq

/-- The socket an emission is addressed to. -/
def YEmit.target : YEmit → Nat
  | .sync c _ => c
  | .docUpdate c _ => c
  | .awareness c _ => c

/-- Heap read; a dangling reference reads as a fresh empty object. -/
def arenaGet : List ProjectDoc → Nat → ProjectDoc
  | [], _ => ⟨∅, [], none⟩
  | pd :: _, 0 => pd
  | _ :: rest, n + 1 => arenaGet rest n

/-- Heap write; out-of-range writes are dropped. -/
def arenaSet : List ProjectDoc → Nat → ProjectDoc → List ProjectDoc
  | [], _, _ => []
  | _ :: rest, 0, pd => pd :: rest
  | x :: rest, n + 1, pd => x :: arenaSet rest n pd

/-- Lookup in the `projectDocs` map. -/
def lookupRef (m : List (DocKey × Nat)) (k : DocKey) : Option Nat :=
  (m.find? (fun p => p.1 == k)).map (fun p => p.2)

/-- Grace period of the eviction timeout: `5 * 60 * 1000` ms. -/
def gracePeriod : Nat := 5 * 60 * 1000

/-- The `yjs-connect` handler: get-or-create the `ProjectDoc` for the key, add
the socket to its member set, register the attachment's listeners, and send the
caller a `yjs-sync` snapshot computed as
`Y.encodeStateAsUpdate(doc, Y.encodeStateVector(doc))`. -/
def yjsConnect (s : ServerState) (c : Nat) (k : DocKey) : ServerState × List YEmit :=
  let pre : List ProjectDoc × List (DocKey × Nat) × Nat :=
    match lookupRef s.projectDocs k with
    | some r => (s.arena, s.projectDocs, r)
    | none => (s.arena ++ [⟨∅, [], none⟩], s.projectDocs ++ [(k, s.arena.length)], s.arena.length)
  let pd := arenaGet pre.1 pre.2.2
  let pd' : ProjectDoc := ⟨pd.doc, addConn pd.connections c, none⟩
  let snap := encodeStateAsUpdate pd'.doc (encodeStateVector pd'.doc)
  ({ arena := arenaSet pre.1 pre.2.2 pd',
     projectDocs := pre.2.1,
     regs := s.regs ++ [⟨c, pre.2.2, k⟩],
     timers := s.timers }, [.sync c snap])

/-- The `conn.close` body of one attachment: delete the socket from the member
set; if the set is now empty, schedule a `setTimeout` eviction `gracePeriod`
later.  The timeout is never cancelled.  `close` emits nothing. -/
def connClose (s : ServerState) (t : Nat) (reg : Reg) : ServerState :=
  if delConn (arenaGet s.arena reg.ref).connections reg.conn = [] then
    { s with
        arena := arenaSet s.arena reg.ref
          ⟨(arenaGet s.arena reg.ref).doc,
           delConn (arenaGet s.arena reg.ref).connections reg.conn, some t⟩,
        timers := s.timers ++ [⟨reg.ref, reg.key, t + gracePeriod⟩] }
  else
    { s with
        arena := arenaSet s.arena reg.ref
          ⟨(arenaGet s.arena reg.ref).doc,
           delConn (arenaGet s.arena reg.ref).connections reg.conn,
           (arenaGet s.arena reg.ref).lastEmptied⟩ }

/-- A `disconnect` or `yjs-disconnect` event runs every close listener the
socket has registered, in registration order. -/
def runCloses (s : ServerState) (t : Nat) (c : Nat) : ServerState :=
  (s.regs.filter (fun reg => reg.conn == c)).foldl (fun st reg => connClose st t reg) s

/-- The body of one `yjs-update` listener: apply the update to the captured
document and broadcast it to every member of the captured `connections` set
other than the sending socket. -/
def yjsUpdateHandler (pd : ProjectDoc) (sender : Nat) (u : Nat) : ProjectDoc × List YEmit :=
  (⟨applyUpdate pd.doc u, pd.connections, pd.lastEmptied⟩,
   (pd.connections.filter (fun m => m ≠ sender)).map (fun m => .docUpdate m u))

/-- Run one registered `yjs-update` listener against the current heap. -/
def runUpdStep (u : Nat) (acc : ServerState × List YEmit) (reg : Reg) : ServerState × List YEmit :=
  let pd := arenaGet acc.1.arena reg.ref
  let res := yjsUpdateHandler pd reg.conn u
  ({ acc.1 with arena := arenaSet acc.1.arena reg.ref res.1 }, acc.2 ++ res.2)

/-- A `yjs-update` event from socket `c`: every `yjs-update` listener `c` has
registered (one per `yjs-connect`, never removed) runs in order; the payload
carries no document key. -/
def runUpdListeners (s : ServerState) (c : Nat) (u : Nat) : ServerState × List YEmit :=
  (s.regs.filter (fun reg => reg.conn == c)).foldl (runUpdStep u) (s, [])

/-- A `yjs-awareness` event from socket `c`: each of `c`'s awareness listeners
relays the payload to the other members of its captured document; no state is
kept or cleared server-side. -/
def runAwareness (s : ServerState) (c : Nat) (u : Nat) : List YEmit :=
  (s.regs.filter (fun reg => reg.conn == c)).flatMap
    (fun reg =>
      ((arenaGet s.arena reg.ref).connections.filter (fun m => m ≠ c)).map
        (fun m => YEmit.awareness m u))

/-- A fired eviction timeout: if the captured member set is empty, delete the
key from the `projectDocs` map. -/
def fireTimer (s : ServerState) (tm : Timer) : ServerState :=
  if tm ∈ s.timers then
    let s1 : ServerState := { s with timers := s.timers.erase tm }
    if (arenaGet s1.arena tm.ref).connections = [] then
      { s1 with projectDocs := s1.projectDocs.filter (fun p => p.1 ≠ tm.key) }
    else s1
  else s

/-- Client-to-server events of the collaboration module, time-stamped. -/
inductive Evt where
  | connect (t : Nat) (c : Nat) (k : DocKey)
  | update (t : Nat) (c : Nat) (u : Nat)
  | aware (t : Nat) (c : Nat) (u : Nat)
  | yjsDisconnect (t : Nat) (c : Nat)
  | disconnect (t : Nat) (c : Nat)
  | fire (tm : Timer)
deriving DecidableEq, Repr

/-- Single-threaded event processing, as in the node event loop. -/
def serverStep (s : ServerState) : Evt → ServerState × List YEmit
  | .connect _ c k => yjsConnect s c k
  | .update _ c u => runUpdListeners s c u
  | .aware _ c u => (s, runAwareness s c u)
  | .yjsDisconnect t c => (runCloses s t c, [])
  | .disconnect t c => (runCloses s t c, [])
  | .fire tm => (fireTimer s tm, [])

/-- Run a trace of events, collecting all emissions in order. -/
def runTrace (s : ServerState) : List Evt → ServerState × List YEmit
  | [] => (s, [])
  | e :: es =>
    let r := serverStep s e
    let r2 := runTrace r.1 es
    (r2.1, r.2 ++ r2.2)

/-- The empty module state at server start. -/
def initState : ServerState := ⟨[], [], [], []⟩

/-- Member permissions stored on a project membership
(`src/server/src/models/Project.ts` / `routes/projects.ts`). -/
inductive MemberPermission where
  | edit
  | view
deriving DecidableEq, Repr

/-- The edit gate of the file-save route `PUT /:projectId/files/:filePath`:
`isOwner || member?.permission === 'edit'`. -/
def hasEditPermission (isOwner : Bool) (memberPermission : Option MemberPermission) : Bool :=
  isOwner ||
    (match memberPermission with
     | some .edit => true
     | _ => false)

/-- A socket.io room name as used in `index.ts`: either a project room
(`project:` + id, joined by `join-project`) or the room socket.io creates for
each socket under its own id. -/
inductive RoomKey where
  | projectRoom (pid : Nat)
  | socketRoom (sid : Nat)
deriving DecidableEq, Repr

/-- Whether the room name starts with `project:`. -/
def RoomKey.isProject : RoomKey → Bool
  | .projectRoom _ => true
  | .socketRoom _ => false

/-- The socket.io adapter state of `index.ts`: the connected sockets and the
room membership sets.  Invariant of real runs (socket.io documented behaviour):
a connected socket `sid` is a member of its own room `socketRoom sid`. -/
structure IoState where
  connected : List Nat
  rooms : List (RoomKey × List Nat)
deriving DecidableEq

/-- Kinds of WebRTC signaling events (`webrtc-offer` / `webrtc-answer` /
`webrtc-ice-candidate`). -/
inductive SignalKind where
  | offer
  | answer
  | ice
deriving DecidableEq, Repr

/-- Events `index.ts` emits to clients in the fragments modelled here. -/
inductive IoEmit where
  | signal (tgt : Nat) (kind : SignalKind) (fromId : Nat) (payload : Nat)
  | userLeft (tgt : Nat) (who : Nat)
deriving DecidableEq, Repr

/-- Members of a room (a duplicate-free list in insertion order, matching the
JS `Set` held by the socket.io adapter); an absent room is empty. -/
def roomMembers (s : IoState) (k : RoomKey) : List Nat :=
  match s.rooms.find? (fun p => p.1 == k) with
  | some p => p.2
  | none => []

/-- Modelled from the spec: socket.io's `socket.to(room).emit(...)` (the
library is not part of this repository's `src/`): the event is delivered to
every member of the room except the sending socket itself. -/
def broadcastExcept (s : IoState) (k : RoomKey) (sender : Nat) : List Nat :=
  (roomMembers s k).filter (fun m => m ≠ sender)

/-- A `webrtc-offer` / `webrtc-answer` / `webrtc-ice-candidate` handler:
`socket.to(data.to).emit(event, { from: socket.id, payload })`.  No state is
read or written. -/
def webrtcRelay (s : IoState) (sender : Nat) (kind : SignalKind) (dest : Nat) (payload : Nat) :
    IoState × List IoEmit :=
  (s, (broadcastExcept s (.socketRoom dest) sender).map (fun m => .signal m kind sender payload))

/-- The rooms a socket is currently a member of (`socket.rooms`). -/
def socketRoomsOf (s : IoState) (c : Nat) : List RoomKey :=
  (s.rooms.filter (fun p => c ∈ p.2)).map (fun p => p.1)

/-- Modelled from the spec: socket.io removes a disconnecting socket from every
room (and from the connected set) before the user's `disconnect` handlers run;
only the `disconnecting` event still sees the rooms. -/
def leaveAll (s : IoState) (c : Nat) : IoState :=
  ⟨delConn s.connected c, s.rooms.map (fun p => (p.1, delConn p.2 c))⟩

/-- The body of the `disconnect` handler in `index.ts`: iterate `socket.rooms`,
and for each `project:` room broadcast `user-left` to the rest of the room. -/
def disconnectHandlerEmits (s : IoState) (c : Nat) : List IoEmit :=
  ((socketRoomsOf s c).filter RoomKey.isProject).flatMap
    (fun k => (broadcastExcept s k c).map (fun m => IoEmit.userLeft m c))

/-- An abrupt transport disconnect: socket.io first removes the socket from all
rooms, then runs the registered `disconnect` handler on the cleaned-up state. -/
def ioDisconnect (s : IoState) (c : Nat) : IoState × List IoEmit :=
  let s' := leaveAll s c
  (s', disconnectHandlerEmits s' c)

/-- The `leave-project` handler: `socket.leave('project:' + pid)` followed by
`socket.to('project:' + pid).emit('user-left', ...)`. -/
def leaveProject (s : IoState) (c : Nat) (pid : Nat) : IoState × List IoEmit :=
  let s' : IoState :=
    ⟨s.connected,
     s.rooms.map (fun p => if p.1 == RoomKey.projectRoom pid then (p.1, delConn p.2 c) else p)⟩
  (s', (broadcastExcept s' (.projectRoom pid) c).map (fun m => IoEmit.userLeft m c))

/-! Concrete scenario states used by the counterexamples and witnesses. -/

/-- Key of file 1 in project 1. -/
def keyA : DocKey := ⟨1, 1⟩

/-- Key of file 2 in project 1. -/
def keyB : DocKey := ⟨1, 2⟩

/-- Sockets 1 and 2 attached to `keyA`, fresh document. -/
def stTwoMembers : ServerState :=
  (runTrace initState [.connect 0 1 keyA, .connect 1 2 keyA]).1

/-- Socket 1 attaches, merges update 5, then socket 2 attaches. -/
def snapshotTrace : ServerState × List YEmit :=
  runTrace initState [.connect 0 1 keyA, .update 1 1 5, .connect 2 2 keyA]

/-- Attach/detach/attach/detach: the session is emptied at t=10 (timer
scheduled for t=300010), repopulated at t=100, emptied again at t=200 (second
timer for t=300200). -/
def stEvictionTrace : ServerState :=
  (runTrace initState
    [.connect 0 1 keyA, .disconnect 10 1, .connect 100 2 keyA, .disconnect 200 2]).1

/-- Attach/detach/re-attach: socket 2 is a member, and the timer scheduled at
t=10 is still pending. -/
def stReattached : ServerState :=
  (runTrace initState [.connect 0 1 keyA, .disconnect 10 1, .connect 100 2 keyA]).1

/-- Sockets 1 and 2 attached to `keyA`, then socket 1 sends `yjs-disconnect`. -/
def stAfterDetach : ServerState :=
  (runTrace initState [.connect 0 1 keyA, .connect 0 2 keyA, .yjsDisconnect 5 1]).1

/-- Socket 1 attached to both `keyA` and `keyB`; socket 2 attached to `keyA`
only, socket 3 to `keyB` only. -/
def stTwoDocs : ServerState :=
  (runTrace initState
    [.connect 0 1 keyA, .connect 0 1 keyB, .connect 0 2 keyA, .connect 0 3 keyB]).1

/-- A sample session object: three members, empty document. -/
def pdSample : ProjectDoc := ⟨∅, [1, 2, 3], none⟩

/-- Sockets 1 and 2 connected, both members of project room 7. -/
def ioTwoInRoom : IoState :=
  ⟨[1, 2], [(.socketRoom 1, [1]), (.socketRoom 2, [2]), (.projectRoom 7, [1, 2])]⟩

/-- A single connected socket 1. -/
def ioSingle : IoState := ⟨[1], [(.socketRoom 1, [1])]⟩

/-! Helper lemmas about the heap. -/

theorem arenaSet_length (l : List ProjectDoc) (r : Nat) (pd : ProjectDoc) :
    (arenaSet l r pd).length = l.length := by
  induction l generalizing r with
  | nil => rfl
  | cons x xs ih =>
    cases r with
    | zero => rfl
    | succ n => simp [arenaSet, ih]

theorem arenaSet_oob {l : List ProjectDoc} {r : Nat} (pd : ProjectDoc)
    (h : l.length ≤ r) : arenaSet l r pd = l := by
  induction l generalizing r with
  | nil => rfl
  | cons x xs ih =>
    cases r with
    | zero => exact absurd h (by simp)
    | succ n => simp [arenaSet, ih (Nat.le_of_succ_le_succ h)]

theorem arenaGet_oob {l : List ProjectDoc} {r : Nat} (h : l.length ≤ r) :
    arenaGet l r = ⟨∅, [], none⟩ := by
  induction l generalizing r with
  | nil => cases r <;> rfl
  | cons x xs ih =>
    cases r with
    | zero => exact absurd h (by simp)
    | succ n => simpa [arenaGet] using ih (Nat.le_of_succ_le_succ h)

theorem arenaGet_set_self {l : List ProjectDoc} {r : Nat} {pd : ProjectDoc}
    (h : r < l.length) : arenaGet (arenaSet l r pd) r = pd := by
  induction l generalizing r with
  | nil => exact absurd h (by simp)
  | cons x xs ih =>
    cases r with
    | zero => rfl
    | succ n => simpa [arenaSet, arenaGet] using ih (Nat.lt_of_succ_lt_succ h)

theorem arenaGet_set_other {l : List ProjectDoc} {r r' : Nat} {pd : ProjectDoc}
    (h : r' ≠ r) : arenaGet (arenaSet l r pd) r' = arenaGet l r' := by
  induction l generalizing r r' with
  | nil => rfl
  | cons x xs ih =>
    cases r with
    | zero =>
      cases r' with
      | zero => exact absurd rfl h
      | succ m => rfl
    | succ n =>
      cases r' with
      | zero => rfl
      | succ m => simpa [arenaSet, arenaGet] using ih (by omega)

theorem arenaGet_set (l : List ProjectDoc) (r r' : Nat) (pd : ProjectDoc) :
    arenaGet (arenaSet l r pd) r' =
      if r' = r ∧ r < l.length then pd else arenaGet l r' := by
  by_cases h1 : r' = r
  · subst h1
    by_cases h2 : r' < l.length
    · simp [h2, arenaGet_set_self h2]
    · simp [h2, arenaSet_oob pd (Nat.le_of_not_lt h2)]
  · simp [h1, arenaGet_set_other h1]

/-! Merge algebra of the modelled CRDT. -/

theorem applyUpdates_union (us : List Nat) : ∀ doc : YDoc,
    applyUpdates doc us = doc ∪ us.toFinset := by
  induction us with
  | nil => intro doc; simp [applyUpdates]
  | cons u tl ih =>
    intro doc
    have h1 : applyUpdates doc (u :: tl) = applyUpdates (applyUpdate doc u) tl := rfl
    rw [h1, ih]
    simp [applyUpdate, Finset.insert_union, Finset.union_insert]

/-- C4: applying the same set of updates to a DocumentState in any order, or
with duplicates, yields an identical resulting state (commutativity,
associativity, idempotence of the replicated document's merge): two update
lists with the same underlying set merge to the same state, and re-applying an
already-merged update does not alter the state. -/
theorem merge_order_and_duplicate_invariant :
    (∀ (doc : YDoc) (l1 l2 : List Nat), l1.toFinset = l2.toFinset →
        applyUpdates doc l1 = applyUpdates doc l2)
    ∧ (∀ (doc : YDoc) (u : Nat), u ∈ doc → applyUpdate doc u = doc) := by
  constructor
  · intro doc l1 l2 h
    rw [applyUpdates_union, applyUpdates_union, h]
  · intro doc u h
    simp [applyUpdate, Finset.insert_eq_self.mpr h]

/-- Witness for C4 at concrete inputs: `[1,2,2,3]` and `[3,2,1]` merge to the
same state over `{0}`, and re-applying `5` to `{5}` is a no-op. -/
theorem merge_order_and_duplicate_invariant_inst :
    (([1, 2, 2, 3] : List Nat).toFinset = ([3, 2, 1] : List Nat).toFinset
      ∧ applyUpdates {0} [1, 2, 2, 3] = applyUpdates {0} [3, 2, 1])
    ∧ (5 ∈ ({5} : YDoc) ∧ applyUpdate {5} 5 = {5}) :=
  ⟨⟨by decide, merge_order_and_duplicate_invariant.1 {0} [1, 2, 2, 3] [3, 2, 1] (by decide)⟩,
   ⟨by decide, merge_order_and_duplicate_invariant.2 {5} 5 (by decide)⟩⟩

/-- C6: one `yjs-update` is merged into the canonical document and broadcast to
exactly the members of the session other than the sending socket; no emission
of the handler is addressed to the sender. -/
theorem update_broadcast_excludes_sender :
    ∀ (pd : ProjectDoc) (sender u : Nat),
      (yjsUpdateHandler pd sender u).1.doc = applyUpdate pd.doc u
      ∧ (∀ m : Nat, YEmit.docUpdate m u ∈ (yjsUpdateHandler pd sender u).2 ↔
            (m ∈ pd.connections ∧ m ≠ sender))
      ∧ (∀ e ∈ (yjsUpdateHandler pd sender u).2, YEmit.target e ≠ sender) := by
  intro pd sender u
  refine ⟨rfl, ?_, ?_⟩
  · intro m
    simp [yjsUpdateHandler, List.mem_map, List.mem_filter, and_comm]
  · intro e he
    simp only [yjsUpdateHandler, List.mem_map, List.mem_filter] at he
    obtain ⟨m, ⟨_, hne⟩, rfl⟩ := he
    simpa [YEmit.target] using of_decide_eq_true hne

/-- Witness for C6: with members `[1,2,3]` and sender `2`, the update is
merged, member `1` is a broadcast target, and no emission targets `2`. -/
theorem update_broadcast_excludes_sender_inst :
    (yjsUpdateHandler pdSample 2 9).1.doc = applyUpdate pdSample.doc 9
    ∧ (YEmit.docUpdate 1 9 ∈ (yjsUpdateHandler pdSample 2 9).2 ↔
        (1 ∈ pdSample.connections ∧ 1 ≠ 2))
    ∧ ((yjsUpdateHandler pdSample 2 9).2.filter (fun e => e.target == 2)) = [] :=
  ⟨(update_broadcast_excludes_sender pdSample 2 9).1,
   (update_broadcast_excludes_sender pdSample 2 9).2.1 1,
   by decide⟩

/-- C1: the claim fails on the code.  The REST file-save gate
(`hasEditPermission`) does deny viewers, but the `yjs-update` socket handler
performs no authorization at all: a viewer's update is merged into the
canonical document, broadcast to the other member, and the viewer receives no
`permission-denied` (indeed no emission of any kind). -/
theorem viewer_yjs_update_unchecked :
    hasEditPermission false (some .view) = false
    ∧ (arenaGet (serverStep stTwoMembers (.update 2 2 5)).1.arena 0).doc ≠
        (arenaGet stTwoMembers.arena 0).doc
    ∧ ((serverStep stTwoMembers (.update 2 2 5)).2.filter (fun e => e.target == 2)) = []
    ∧ (serverStep stTwoMembers (.update 2 2 5)).2 = [.docUpdate 1 5] := by decide

/-- C2: the claim fails on the code.  After update `5` is merged, a fresh
attach receives a `yjs-sync` snapshot of `encodeStateAsUpdate(doc,
encodeStateVector(doc))` — the diff of the document against its own state
vector — which is empty, not the full state `{5}`. -/
theorem attach_snapshot_empty :
    (arenaGet snapshotTrace.1.arena 0).doc = ({5} : Finset Nat)
    ∧ snapshotTrace.2 = [.sync 1 ∅, .sync 2 ∅]
    ∧ encodeStateAsUpdate {5} (encodeStateVector {5}) = ∅ := by decide

/-- Helper: an abrupt disconnect emits nothing at all, for every state: the
`disconnect` handler iterates `socket.rooms` after socket.io has already
removed the socket from every room. -/
theorem ioDisconnect_emits_nil (s : IoState) (c : Nat) : (ioDisconnect s c).2 = [] := by
  have h : (leaveAll s c).rooms.filter (fun p => c ∈ p.2) = [] := by
    rw [List.filter_eq_nil_iff]
    intro p hp
    simp only [leaveAll, List.mem_map] at hp
    obtain ⟨q, _, rfl⟩ := hp
    simp [delConn]
  simp [ioDisconnect, disconnectHandlerEmits, socketRoomsOf, h]

/-- C3: the claim fails on the code.  With sockets 1 and 2 in project room 7,
socket 2's abrupt disconnect emits nothing (the handler reads `socket.rooms`
inside the `disconnect` event, where socket.io has already emptied it), while
the explicit `leave-project` path does emit `user-left` to the remaining
member 1. -/
theorem abrupt_disconnect_emits_nothing :
    1 ∈ roomMembers ioTwoInRoom (.projectRoom 7)
    ∧ 2 ∈ roomMembers ioTwoInRoom (.projectRoom 7)
    ∧ (ioDisconnect ioTwoInRoom 2).2 = []
    ∧ (leaveProject ioTwoInRoom 2 7).2 = [.userLeft 1 2] := by decide

/-- C5 counterexample: the eviction timeout is not cancelled by a re-attach.
The session is emptied at t=10 (timer scheduled for t=300010), re-attached at
t=100 — the timer is still pending — and emptied again at t=200.  When the
stale timer fires at t=300010 the document is removed from the registry even
though the session has only been empty since t=200, i.e. for 299810 ms, less
than the 300000 ms grace period. -/
theorem stale_timer_evicts_early :
    ((⟨0, keyA, 300010⟩ : Timer) ∈ stReattached.timers
      ∧ (arenaGet stReattached.arena 0).connections = [2])
    ∧ ((⟨0, keyA, 300010⟩ : Timer) ∈ stEvictionTrace.timers
      ∧ (arenaGet stEvictionTrace.arena 0).lastEmptied = some 200
      ∧ 300010 < 200 + gracePeriod
      ∧ lookupRef stEvictionTrace.projectDocs keyA = some 0
      ∧ lookupRef (serverStep stEvictionTrace (.fire ⟨0, keyA, 300010⟩)).1.projectDocs keyA
          = none) := by decide

/-- C7 counterexample: with sockets 1 and 2 attached to the same document,
socket 1's `yjs-disconnect` produces no emission at all — in particular no
awareness-clearing event reaches the remaining member 2. -/
theorem detach_broadcasts_nothing :
    (arenaGet stTwoMembers.arena 0).connections = [1, 2]
    ∧ (serverStep stTwoMembers (.yjsDisconnect 5 1)).2 = []
    ∧ (serverStep stTwoMembers (.disconnect 5 1)).2 = [] := by decide

/-- C8 counterexample: a signaling envelope whose destination is the sender
itself is dropped even though the destination is connected, because
`socket.to(room)` excludes the sending socket. -/
theorem signal_to_self_dropped :
    1 ∈ ioSingle.connected
    ∧ roomMembers ioSingle (.socketRoom 1) = [1]
    ∧ (webrtcRelay ioSingle 1 .offer 1 99).2 = [] := by decide

/-- C8 (amended): if the destination socket is connected (its socket-id room is
exactly itself) and distinct from the sender, it receives the payload with the
sender's id attached; if the destination is not connected (its room is empty)
the envelope is silently dropped; in every case the relay changes no state. -/
theorem signal_route_amended :
    ∀ (s : IoState) (sender dest payload : Nat) (kind : SignalKind),
      (roomMembers s (.socketRoom dest) = [dest] → dest ≠ sender →
        (webrtcRelay s sender kind dest payload).2 = [.signal dest kind sender payload])
      ∧ (roomMembers s (.socketRoom dest) = [] →
        (webrtcRelay s sender kind dest payload).2 = [])
      ∧ (webrtcRelay s sender kind dest payload).1 = s := by
  intro s sender dest payload kind
  refine ⟨?_, ?_, rfl⟩
  · intro hroom hne
    simp [webrtcRelay, broadcastExcept, hroom, hne]
  · intro hroom
    simp [webrtcRelay, broadcastExcept, hroom]

/-- Witness for C8 (amended): concrete delivery from 1 to 2, concrete drop to
the unconnected 5, and no state change. -/
theorem signal_route_amended_inst :
    (roomMembers ioTwoInRoom (.socketRoom 2) = [2]
      ∧ (webrtcRelay ioTwoInRoom 1 .offer 2 99).2 = [.signal 2 .offer 1 99])
    ∧ (roomMembers ioTwoInRoom (.socketRoom 5) = []
      ∧ (webrtcRelay ioTwoInRoom 1 .answer 5 42).2 = [])
    ∧ (webrtcRelay ioTwoInRoom 1 .ice 2 7).1 = ioTwoInRoom :=
  ⟨⟨by decide, (signal_route_amended ioTwoInRoom 1 2 99 .offer).1 (by decide) (by decide)⟩,
   ⟨by decide, (signal_route_amended ioTwoInRoom 1 5 42 .answer).2.1 (by decide)⟩,
   (signal_route_amended ioTwoInRoom 1 2 7 .ice).2.2⟩

/-! Lemmas about running all of a socket's `yjs-update` listeners. -/

theorem runUpdStep_arena_length (u : Nat) (acc : ServerState × List YEmit) (reg : Reg) :
    (runUpdStep u acc reg).1.arena.length = acc.1.arena.length := by
  simp [runUpdStep, arenaSet_length]

theorem runUpdStep_arenaGet (u : Nat) (acc : ServerState × List YEmit) (reg : Reg) (r : Nat) :
    arenaGet (runUpdStep u acc reg).1.arena r =
      if r = reg.ref ∧ reg.ref < acc.1.arena.length then
        ⟨applyUpdate (arenaGet acc.1.arena reg.ref).doc u,
         (arenaGet acc.1.arena reg.ref).connections,
         (arenaGet acc.1.arena reg.ref).lastEmptied⟩
      else arenaGet acc.1.arena r := by
  simp [runUpdStep, yjsUpdateHandler, arenaGet_set]

theorem runUpdStep_emits (u : Nat) (acc : ServerState × List YEmit) (reg : Reg) :
    (runUpdStep u acc reg).2 =
      acc.2 ++ ((arenaGet acc.1.arena reg.ref).connections.filter
          (fun m => m ≠ reg.conn)).map (fun m => YEmit.docUpdate m u) := rfl

theorem updFold_connections (u : Nat) (ls : List Reg) :
    ∀ (acc : ServerState × List YEmit) (r : Nat),
      (arenaGet (ls.foldl (runUpdStep u) acc).1.arena r).connections =
        (arenaGet acc.1.arena r).connections := by
  induction ls with
  | nil => intro acc r; rfl
  | cons a tl ih =>
    intro acc r
    rw [List.foldl_cons, ih, runUpdStep_arenaGet]
    split
    · rename_i h
      rw [h.1]
    · rfl

theorem updFold_length (u : Nat) (ls : List Reg) :
    ∀ acc : ServerState × List YEmit,
      (ls.foldl (runUpdStep u) acc).1.arena.length = acc.1.arena.length := by
  induction ls with
  | nil => intro acc; rfl
  | cons a tl ih =>
    intro acc
    rw [List.foldl_cons, ih, runUpdStep_arena_length]

theorem updFold_doc_mem (u : Nat) (ls : List Reg) :
    ∀ (acc : ServerState × List YEmit) (r : Nat),
      u ∈ (arenaGet acc.1.arena r).doc →
      u ∈ (arenaGet (ls.foldl (runUpdStep u) acc).1.arena r).doc := by
  induction ls with
  | nil => intro acc r h; exact h
  | cons a tl ih =>
    intro acc r h
    rw [List.foldl_cons]
    apply ih
    rw [runUpdStep_arenaGet]
    split
    · exact Finset.mem_insert_self u _
    · exact h

theorem updFold_emits_mono (u : Nat) (ls : List Reg) :
    ∀ (acc : ServerState × List YEmit) (e : YEmit),
      e ∈ acc.2 → e ∈ (ls.foldl (runUpdStep u) acc).2 := by
  induction ls with
  | nil => intro acc e h; exact h
  | cons a tl ih =>
    intro acc e h
    rw [List.foldl_cons]
    apply ih
    rw [runUpdStep_emits]
    exact List.mem_append_left _ h

theorem updFold_spec (u : Nat) (ls : List Reg) :
    ∀ (acc : ServerState × List YEmit) (reg : Reg),
      reg ∈ ls → reg.ref < acc.1.arena.length →
      u ∈ (arenaGet (ls.foldl (runUpdStep u) acc).1.arena reg.ref).doc
      ∧ ∀ m, m ∈ (arenaGet acc.1.arena reg.ref).connections → m ≠ reg.conn →
          YEmit.docUpdate m u ∈ (ls.foldl (runUpdStep u) acc).2 := by
  induction ls with
  | nil => intro acc reg h; exact absurd h (List.not_mem_nil reg)
  | cons a tl ih =>
    intro acc reg hmem hlen
    rw [List.foldl_cons]
    rcases List.mem_cons.mp hmem with heq | htl
    · subst heq
      constructor
      · apply updFold_doc_mem
        rw [runUpdStep_arenaGet]
        simp only [hlen, and_self, if_pos, and_true, true_and]
        exact Finset.mem_insert_self u _
      · intro m hm hne
        apply updFold_emits_mono
        rw [runUpdStep_emits]
        refine List.mem_append_right _ ?_
        rw [List.mem_map]
        refine ⟨m, List.mem_filter.mpr ⟨hm, by simpa using hne⟩, rfl⟩
    · have hlen' : reg.ref < (runUpdStep u acc a).1.arena.length := by
        rw [runUpdStep_arena_length]; exact hlen
      have h := ih (runUpdStep u acc a) reg htl hlen'
      have hc : (arenaGet (runUpdStep u acc a).1.arena reg.ref).connections =
          (arenaGet acc.1.arena reg.ref).connections := by
        have h1 := updFold_connections u [a] acc reg.ref
        simpa using h1
      refine ⟨h.1, fun m hm hne => ?_⟩
      exact h.2 m (by rw [hc]; exact hm) hne

/-! Lemmas about running all of a socket's close listeners. -/

theorem connClose_regs (s : ServerState) (t : Nat) (reg : Reg) :
    (connClose s t reg).regs = s.regs := by
  unfold connClose
  split <;> rfl

theorem closeFold_regs (t : Nat) (ls : List Reg) :
    ∀ st : ServerState,
      (ls.foldl (fun a reg => connClose a t reg) st).regs = st.regs := by
  induction ls with
  | nil => intro st; rfl
  | cons a tl ih =>
    intro st
    rw [List.foldl_cons, ih, connClose_regs]

theorem connClose_connections (s : ServerState) (t : Nat) (reg : Reg) (r : Nat) :
    (arenaGet (connClose s t reg).arena r).connections =
      if r = reg.ref ∧ reg.ref < s.arena.length
      then delConn (arenaGet s.arena reg.ref).connections reg.conn
      else (arenaGet s.arena r).connections := by
  unfold connClose
  split_ifs with h1 h2 h2 <;> simp [arenaGet_set, h2]

theorem connClose_removes (s : ServerState) (t : Nat) (reg : Reg) :
    reg.conn ∉ (arenaGet (connClose s t reg).arena reg.ref).connections := by
  rw [connClose_connections]
  by_cases h : reg.ref < s.arena.length
  · simp [h, delConn]
  · simp only [h, and_false, if_neg, not_false_eq_true]
    rw [arenaGet_oob (Nat.le_of_not_lt h)]
    simp

theorem connClose_preserves_not_mem (s : ServerState) (t : Nat) (reg : Reg) (c r : Nat)
    (h : c ∉ (arenaGet s.arena r).connections) :
    c ∉ (arenaGet (connClose s t reg).arena r).connections := by
  rw [connClose_connections]
  split
  · rename_i hc
    intro hmem
    apply h
    rw [hc.1]
    exact (List.mem_filter.mp hmem).1
  · exact h

theorem closeFold_not_mem (t c : Nat) (ls : List Reg) :
    ∀ (st : ServerState) (r : Nat), c ∉ (arenaGet st.arena r).connections →
      c ∉ (arenaGet (ls.foldl (fun a reg => connClose a t reg) st).arena r).connections := by
  induction ls with
  | nil => intro st r h; exact h
  | cons a tl ih =>
    intro st r h
    rw [List.foldl_cons]
    exact ih _ _ (connClose_preserves_not_mem st t a c r h)

theorem closeFold_removes (t c : Nat) (ls : List Reg) :
    ∀ st : ServerState, (∀ reg ∈ ls, reg.conn = c) →
      ∀ reg ∈ ls,
        c ∉ (arenaGet (ls.foldl (fun a reg => connClose a t reg) st).arena reg.ref).connections := by
  induction ls with
  | nil => intro st hall reg hreg; exact absurd hreg (List.not_mem_nil reg)
  | cons a tl ih =>
    intro st hall reg hreg
    rw [List.foldl_cons]
    rcases List.mem_cons.mp hreg with heq | htl
    · subst heq
      apply closeFold_not_mem
      have hcn : reg.conn = c := hall reg (List.mem_cons_self reg tl)
      rw [← hcn]
      exact connClose_removes st t reg
    · exact ih (connClose st t a) (fun x hx => hall x (List.mem_cons_of_mem a hx)) reg htl

/-- C5 (amended): a pending eviction timer that fires while the session has
members removes nothing (registry map and heap are unchanged), and
re-attaching to a registered key preserves the in-memory document and its
registry entry; but a timer firing when the member set is empty always deletes
the key — the schedule itself is never cancelled by a re-attach, so a stale
timer can evict a session that has been empty again for less than the grace
period (see `stale_timer_evicts_early`). -/
theorem eviction_amended :
    ∀ (s : ServerState) (tm : Timer) (c : Nat) (k : DocKey) (r : Nat),
      ((arenaGet s.arena tm.ref).connections ≠ [] →
        (fireTimer s tm).projectDocs = s.projectDocs ∧ (fireTimer s tm).arena = s.arena)
      ∧ (tm ∈ s.timers → (arenaGet s.arena tm.ref).connections = [] →
          lookupRef (fireTimer s tm).projectDocs tm.key = none)
      ∧ (lookupRef s.projectDocs k = some r →
          (arenaGet (yjsConnect s c k).1.arena r).doc = (arenaGet s.arena r).doc
          ∧ lookupRef (yjsConnect s c k).1.projectDocs k = some r) := by
  intro s tm c k r
  refine ⟨?_, ?_, ?_⟩
  · intro hne
    by_cases hmem : tm ∈ s.timers
    · simp [fireTimer, hmem, hne]
    · simp [fireTimer, hmem]
  · intro hmem hempty
    have hfind : (s.projectDocs.filter (fun p => p.1 ≠ tm.key)).find?
        (fun p => p.1 == tm.key) = none := by
      rw [List.find?_eq_none]
      intro x hx
      have h2 := (List.mem_filter.mp hx).2
      simp only [decide_eq_true_eq] at h2
      simp [h2]
    simp [fireTimer, hmem, hempty, lookupRef, hfind]
  · intro hlook
    have h1 : (yjsConnect s c k).1.arena =
        arenaSet s.arena r
          ⟨(arenaGet s.arena r).doc, addConn (arenaGet s.arena r).connections c, none⟩ := by
      simp [yjsConnect, hlook]
    have h2 : (yjsConnect s c k).1.projectDocs = s.projectDocs := by
      simp [yjsConnect, hlook]
    refine ⟨?_, by rw [h2]; exact hlook⟩
    rw [h1, arenaGet_set]
    by_cases h : r < s.arena.length
    · simp [h]
    · simp [h]

/-- Witness for C5 (amended): in `stReattached` (one member, stale timer
pending) the firing timer removes nothing and a re-attach preserves the
document; in `stEvictionTrace` (member set empty) the firing stale timer
deletes the key. -/
theorem eviction_amended_inst :
    ((arenaGet stReattached.arena 0).connections ≠ []
      ∧ (fireTimer stReattached ⟨0, keyA, 300010⟩).projectDocs = stReattached.projectDocs
      ∧ (fireTimer stReattached ⟨0, keyA, 300010⟩).arena = stReattached.arena)
    ∧ ((⟨0, keyA, 300010⟩ : Timer) ∈ stEvictionTrace.timers
      ∧ (arenaGet stEvictionTrace.arena 0).connections = []
      ∧ lookupRef (fireTimer stEvictionTrace ⟨0, keyA, 300010⟩).projectDocs keyA = none)
    ∧ (lookupRef stReattached.projectDocs keyA = some 0
      ∧ (arenaGet (yjsConnect stReattached 5 keyA).1.arena 0).doc =
          (arenaGet stReattached.arena 0).doc
      ∧ lookupRef (yjsConnect stReattached 5 keyA).1.projectDocs keyA = some 0) :=
  ⟨⟨by decide,
    ((eviction_amended stReattached ⟨0, keyA, 300010⟩ 5 keyA 0).1 (by decide)).1,
    ((eviction_amended stReattached ⟨0, keyA, 300010⟩ 5 keyA 0).1 (by decide)).2⟩,
   ⟨by decide, by decide,
    (eviction_amended stEvictionTrace ⟨0, keyA, 300010⟩ 5 keyA 0).2.1 (by decide) (by decide)⟩,
   ⟨by decide,
    ((eviction_amended stReattached ⟨0, keyA, 300010⟩ 5 keyA 0).2.2 (by decide)).1,
    ((eviction_amended stReattached ⟨0, keyA, 300010⟩ 5 keyA 0).2.2 (by decide)).2⟩⟩

/-- C7 (amended): on `yjs-disconnect` or transport disconnect the socket is
removed from the member set of every document it attached to, but no
awareness-clearing event — indeed no event at all — is emitted to the
remaining members; the server holds no per-participant awareness state to
clear. -/
theorem detach_removes_member_silently :
    ∀ (s : ServerState) (t c : Nat) (reg : Reg), reg ∈ s.regs → reg.conn = c →
      c ∉ (arenaGet (serverStep s (.yjsDisconnect t c)).1.arena reg.ref).connections
      ∧ (serverStep s (.yjsDisconnect t c)).2 = []
      ∧ c ∉ (arenaGet (serverStep s (.disconnect t c)).1.arena reg.ref).connections
      ∧ (serverStep s (.disconnect t c)).2 = [] := by
  intro s t c reg hmem hconn
  have hf : reg ∈ s.regs.filter (fun x => x.conn == c) :=
    List.mem_filter.mpr ⟨hmem, by simp [hconn]⟩
  have hall : ∀ x ∈ s.regs.filter (fun x => x.conn == c), x.conn = c := by
    intro x hx
    simpa using (List.mem_filter.mp hx).2
  exact ⟨closeFold_removes t c _ s hall reg hf, rfl,
         closeFold_removes t c _ s hall reg hf, rfl⟩

/-- Witness for C7 (amended): socket 1 detaching from `stTwoMembers` is
removed from the member set while nothing is emitted. -/
theorem detach_removes_member_silently_inst :
    ((⟨1, 0, keyA⟩ : Reg) ∈ stTwoMembers.regs)
    ∧ 1 ∉ (arenaGet (serverStep stTwoMembers (.yjsDisconnect 5 1)).1.arena 0).connections
    ∧ (serverStep stTwoMembers (.yjsDisconnect 5 1)).2 = [] :=
  ⟨by decide,
   (detach_removes_member_silently stTwoMembers 5 1 ⟨1, 0, keyA⟩ (by decide) rfl).1,
   (detach_removes_member_silently stTwoMembers 5 1 ⟨1, 0, keyA⟩ (by decide) rfl).2.1⟩

/-- C9: `yjs-disconnect` removes no listener registration, so a subsequent
`yjs-update` from the detached socket is still merged into the canonical
document of every attachment the socket ever made, and is still broadcast to
the session's current members other than the sender. -/
theorem update_listener_survives_detach :
    ∀ (s : ServerState) (t t' c u r : Nat) (k : DocKey),
      (serverStep s (.yjsDisconnect t c)).1.regs = s.regs
      ∧ ((⟨c, r, k⟩ : Reg) ∈ s.regs → r < s.arena.length →
          u ∈ (arenaGet (serverStep s (.update t' c u)).1.arena r).doc
          ∧ ∀ m, m ∈ (arenaGet s.arena r).connections → m ≠ c →
              YEmit.docUpdate m u ∈ (serverStep s (.update t' c u)).2) := by
  intro s t t' c u r k
  constructor
  · exact closeFold_regs t _ s
  · intro hmem hlen
    have hf : (⟨c, r, k⟩ : Reg) ∈ s.regs.filter (fun reg => reg.conn == c) :=
      List.mem_filter.mpr ⟨hmem, by simp⟩
    have h := updFold_spec u (s.regs.filter (fun reg => reg.conn == c))
      (s, []) ⟨c, r, k⟩ hf hlen
    exact ⟨h.1, h.2⟩

/-- Witness for C9: in `stAfterDetach` (socket 1 already sent
`yjs-disconnect`) an update from socket 1 is still merged and still delivered
to the remaining member 2, and the listener registrations are untouched. -/
theorem update_listener_survives_detach_inst :
    ((⟨1, 0, keyA⟩ : Reg) ∈ stAfterDetach.regs ∧ 0 < stAfterDetach.arena.length
      ∧ 2 ∈ (arenaGet stAfterDetach.arena 0).connections)
    ∧ 7 ∈ (arenaGet (serverStep stAfterDetach (.update 6 1 7)).1.arena 0).doc
    ∧ YEmit.docUpdate 2 7 ∈ (serverStep stAfterDetach (.update 6 1 7)).2
    ∧ (serverStep stAfterDetach (.yjsDisconnect 9 1)).1.regs = stAfterDetach.regs :=
  ⟨⟨by decide, by decide, by decide⟩,
   ((update_listener_survives_detach stAfterDetach 9 6 1 7 0 keyA).2
      (by decide) (by decide)).1,
   ((update_listener_survives_detach stAfterDetach 9 6 1 7 0 keyA).2
      (by decide) (by decide)).2 2 (by decide) (by decide),
   (update_listener_survives_detach stAfterDetach 9 6 1 7 0 keyA).1⟩

/-- C10: `yjs-update` payloads carry no document key and each `yjs-connect`
registers another listener on the same socket, so a single update from a
socket attached to several documents is merged into every one of their
canonical states and broadcast to the members of every one of those
sessions. -/
theorem update_fans_out_to_all_attached_docs :
    ∀ (s : ServerState) (t' c u r1 r2 : Nat) (k1 k2 : DocKey),
      (⟨c, r1, k1⟩ : Reg) ∈ s.regs → (⟨c, r2, k2⟩ : Reg) ∈ s.regs →
      r1 < s.arena.length → r2 < s.arena.length →
      (u ∈ (arenaGet (serverStep s (.update t' c u)).1.arena r1).doc
        ∧ u ∈ (arenaGet (serverStep s (.update t' c u)).1.arena r2).doc)
      ∧ (∀ m, m ∈ (arenaGet s.arena r1).connections → m ≠ c →
          YEmit.docUpdate m u ∈ (serverStep s (.update t' c u)).2)
      ∧ (∀ m, m ∈ (arenaGet s.arena r2).connections → m ≠ c →
          YEmit.docUpdate m u ∈ (serverStep s (.update t' c u)).2) := by
  intro s t' c u r1 r2 k1 k2 h1 h2 hl1 hl2
  have hf1 : (⟨c, r1, k1⟩ : Reg) ∈ s.regs.filter (fun reg => reg.conn == c) :=
    List.mem_filter.mpr ⟨h1, by simp⟩
  have hf2 : (⟨c, r2, k2⟩ : Reg) ∈ s.regs.filter (fun reg => reg.conn == c) :=
    List.mem_filter.mpr ⟨h2, by simp⟩
  have g1 := updFold_spec u (s.regs.filter (fun reg => reg.conn == c))
    (s, []) ⟨c, r1, k1⟩ hf1 hl1
  have g2 := updFold_spec u (s.regs.filter (fun reg => reg.conn == c))
    (s, []) ⟨c, r2, k2⟩ hf2 hl2
  exact ⟨⟨g1.1, g2.1⟩, g1.2, g2.2⟩

/-- Witness for C10: in `stTwoDocs`, socket 1 is attached to `keyA` (heap ref
0, other member 2) and `keyB` (heap ref 1, other member 3); its single update
`9` is merged into both documents and delivered to both 2 and 3. -/
theorem update_fans_out_to_all_attached_docs_inst :
    ((⟨1, 0, keyA⟩ : Reg) ∈ stTwoDocs.regs ∧ (⟨1, 1, keyB⟩ : Reg) ∈ stTwoDocs.regs)
    ∧ (9 ∈ (arenaGet (serverStep stTwoDocs (.update 1 1 9)).1.arena 0).doc
      ∧ 9 ∈ (arenaGet (serverStep stTwoDocs (.update 1 1 9)).1.arena 1).doc)
    ∧ YEmit.docUpdate 2 9 ∈ (serverStep stTwoDocs (.update 1 1 9)).2
    ∧ YEmit.docUpdate 3 9 ∈ (serverStep stTwoDocs (.update 1 1 9)).2 :=
  ⟨⟨by decide, by decide⟩,
   (update_fans_out_to_all_attached_docs stTwoDocs 1 1 9 0 1 keyA keyB
      (by decide) (by decide) (by decide) (by decide)).1,
   (update_fans_out_to_all_attached_docs stTwoDocs 1 1 9 0 1 keyA keyB
      (by decide) (by decide) (by decide) (by decide)).2.1 2 (by decide) (by decide),
   (update_fans_out_to_all_attached_docs stTwoDocs 1 1 9 0 1 keyA keyB
      (by decide) (by decide) (by decide) (by decide)).2.2 3 (by decide) (by decide)⟩

end CodeLoom
